import Mathlib

/-!
Shallow embedding of the point-ledger service of `hhplus-tdd-nest`
(`src/point/point.service.ts`, lock-guarded variant, and the historical
unguarded variant of the same service).

JavaScript numbers passed as `userId` / `amount` are modelled by `JSNum`:
a finite integer-valued number carries its integer, a finite non-integer
(fractional) number carries its floor, and `NaN`, `Infinity`, `-Infinity`
are explicit constructors. The service's validation gate inspects only
integrality and sign, and every value that survives it is an integer, so
this abstraction of the float domain is exact for the embedded code.
State mutation of the two collaborator tables is made explicit: every
operation returns its result together with the post-state and a trace of
collaborator/lock events, in the order the source performs them.
-/

namespace PointTdd

/-- A JavaScript number argument: `int n` is a finite integer-valued
number, `frac n` a finite non-integer lying strictly between `n` and
`n + 1` (so `1.5` is `frac 1`, `-0.5` is `frac (-1)`), plus `NaN` and
`±Infinity`. -/
inductive JSNum where
  | int (n : Int)
  | frac (n : Int)
  | nan
  | posInf
  | negInf
deriving Repr, DecidableEq

/-- `Number.isInteger(x)`: true iff `x` is a finite number with no
fractional part (`false` for `NaN` and `±Infinity`). -/
def JSNum.isInteger : JSNum → Bool
  | .int _ => true
  | _ => false

/-- The JavaScript comparison `x <= 0` (false for `NaN`, false for
`Infinity`, true for `-Infinity`; a non-integer in `(n, n+1)` is `≤ 0`
iff `n < 0`). -/
def JSNum.leZero : JSNum → Bool
  | .int n => decide (n ≤ 0)
  | .frac n => decide (n < 0)
  | .nan => false
  | .posInf => false
  | .negInf => true

/-- The validation gate of the service: `Number.isInteger(x) && !(x <= 0)`,
i.e. `x` is a positive integer. -/
def validPosInt (x : JSNum) : Bool :=
  x.isInteger && !x.leZero

/-- The natural-number value of a (valid) integer `JSNum` argument. -/
def JSNum.toNatVal : JSNum → Nat
  | .int n => n.toNat
  | _ => 0

/-- The integer value of a (valid) integer `JSNum` argument. -/
def JSNum.toIntVal : JSNum → Int
  | .int n => n
  | _ => 0

/-- `TransactionType` from `point.model.ts`. -/
inductive TransactionType where
  | CHARGE
  | USE
deriving Repr, DecidableEq

/-- `UserPoint` record from `point.model.ts`. -/
structure UserPoint where
  id : Nat
  point : Int
  updateMillis : Nat
deriving Repr, DecidableEq

/-- `PointHistory` record from `point.model.ts`. -/
structure PointHistory where
  id : Nat
  userId : Nat
  amount : Int
  type : TransactionType
  timeMillis : Nat
deriving Repr, DecidableEq

/-- Association-list lookup keyed by user id (the `Map.get` /
`Map.has` behaviour used by the tables and the lock registry). -/
def alookup {α : Type} : List (Nat × α) → Nat → Option α
  | [], _ => none
  | (k, v) :: rest, uid => if k = uid then some v else alookup rest uid

/-- Modelled from the spec: `UserPointTable.insertOrUpdate` (the table source
is not in the repository snapshot). Idempotent upsert keyed by `userId`:
replaces the existing binding in place, otherwise appends a new one. -/
def insertOrUpdate : List (Nat × Int) → Nat → Int → List (Nat × Int)
  | [], uid, p => [(uid, p)]
  | (k, v) :: rest, uid, p =>
    if k = uid then (k, p) :: rest else (k, v) :: insertOrUpdate rest uid p

/-- Modelled from the spec: `UserPointTable.selectById` (the table source is
not in the repository snapshot) returns the stored balance, or a
zero-balance default for an unknown id; it never fails. -/
def selectById (store : List (Nat × Int)) (uid : Nat) : Int :=
  match alookup store uid with
  | some p => p
  | none => 0

/-- Combined state of the two collaborator tables: the per-user balance
store, the append-only history log, and the history id cursor. -/
structure PointState where
  store : List (Nat × Int)
  history : List PointHistory
  cursor : Nat
deriving Repr, DecidableEq

/-- The empty initial state of both tables. -/
def PointState.empty : PointState := ⟨[], [], 1⟩

/-- Error taxonomy of the service, one constructor per `throw` site. -/
inductive PointErr where
  | invalidId
  | invalidChargeAmount
  | invalidUseAmount
  | limitExceeded (limit : Int)
  | insufficientPoint
  | historyRejected
deriving Repr, DecidableEq

/-- The spec's `InvalidArgument` kind covers the two pre-lock validation
throw sites (invalid id, invalid amount). -/
def PointErr.isInvalidArgument : PointErr → Bool
  | .invalidId => true
  | .invalidChargeAmount => true
  | .invalidUseAmount => true
  | _ => false

/-- The message text of each `throw new Error(...)` in the source. -/
def errMessage : PointErr → String
  | .invalidId => "올바르지 않은 ID 값 입니다."
  | .invalidChargeAmount => "충전할 포인트는 정수여야 하며 0보다 커야합니다."
  | .invalidUseAmount => "사용할 포인트는 정수여야 하며 0보다 커야합니다."
  | .limitExceeded l => "충전할 수 있는 최대 포인트는 " ++ toString l ++ " 입니다."
  | .insufficientPoint => "포인트가 부족합니다."
  | .historyRejected => "history insert rejected"

/-- Observable collaborator / lock events, in source order. -/
inductive Event where
  | lockAcquire (uid : Nat)
  | lockRelease (uid : Nat)
  | storeRead (uid : Nat)
  | storeWrite (uid : Nat) (point : Int)
  | historyRead (uid : Nat)
  | historyInsert (uid : Nat) (amount : Int) (t : TransactionType)
deriving Repr, DecidableEq

/-- Whether an event is a balance write. -/
def Event.isStoreWrite : Event → Bool
  | .storeWrite _ _ => true
  | _ => false

/-- Whether an event is a history append. -/
def Event.isHistoryInsert : Event → Bool
  | .historyInsert _ _ _ => true
  | _ => false

deriving instance DecidableEq for Except

/-- Outcome of one service call: the returned value or error, the post-state
of the collaborator tables, and the event trace. -/
structure OpOutcome (α : Type) where
  res : Except PointErr α
  state : PointState
  trace : List Event
deriving Repr, DecidableEq

/-- `PointService.getPoint` (identical in the guarded and unguarded
variants): validate the id, then read the user's balance. -/
def getPoint (userId : JSNum) (now : Nat) (s : PointState) :
    OpOutcome UserPoint :=
  if ¬ validPosInt userId then
    ⟨.error .invalidId, s, []⟩
  else
    let uid := userId.toNatVal
    ⟨.ok ⟨uid, selectById s.store uid, now⟩, s, [.storeRead uid]⟩

/-- `PointService.getHistories` (identical in both variants): validate the
id, then return the user's history records in insertion order.
The filter models `PointHistoryTable.selectAllByUserId`, whose source is
not in the repository snapshot; modelled from the spec as the ordered
per-user subsequence of the append-only log. -/
def getHistories (userId : JSNum) (s : PointState) :
    OpOutcome (List PointHistory) :=
  if ¬ validPosInt userId then
    ⟨.error .invalidId, s, []⟩
  else
    let uid := userId.toNatVal
    ⟨.ok (s.history.filter (fun h => h.userId == uid)), s, [.historyRead uid]⟩

/-- `PointService.chargePoint`, guarded variant, with the outcome of the
`historyDb.insert` collaborator promise made explicit: `historyOk = true`
is the run where the append resolves, `historyOk = false` the run where it
rejects (after the balance write, which the source performs first). -/
def chargePointRun (historyOk : Bool) (limit : Int) (userId amount : JSNum)
    (now : Nat) (s : PointState) : OpOutcome UserPoint :=
  if ¬ validPosInt userId then
    ⟨.error .invalidId, s, []⟩
  else if ¬ validPosInt amount then
    ⟨.error .invalidChargeAmount, s, []⟩
  else
    let uid := userId.toNatVal
    let a := amount.toIntVal
    let updatedPoint := selectById s.store uid + a
    if updatedPoint > limit then
      ⟨.error (.limitExceeded limit), s,
        [.lockAcquire uid, .storeRead uid, .lockRelease uid]⟩
    else if historyOk then
      ⟨.ok ⟨uid, updatedPoint, now⟩,
        ⟨insertOrUpdate s.store uid updatedPoint,
          s.history ++ [⟨s.cursor, uid, a, .CHARGE, now⟩], s.cursor + 1⟩,
        [.lockAcquire uid, .storeRead uid, .storeWrite uid updatedPoint,
          .historyInsert uid a .CHARGE, .lockRelease uid]⟩
    else
      ⟨.error .historyRejected,
        ⟨insertOrUpdate s.store uid updatedPoint, s.history, s.cursor⟩,
        [.lockAcquire uid, .storeRead uid, .storeWrite uid updatedPoint,
          .lockRelease uid]⟩

/-- `PointService.chargePoint` (guarded variant), normal run in which both
collaborator calls resolve. -/
def chargePoint (limit : Int) (userId amount : JSNum) (now : Nat)
    (s : PointState) : OpOutcome UserPoint :=
  chargePointRun true limit userId amount now s

/-- `PointService.usePoint`, guarded variant, with the outcome of the
`historyDb.insert` collaborator promise made explicit, as for
`chargePointRun`. -/
def usePointRun (historyOk : Bool) (limit : Int) (userId amount : JSNum)
    (now : Nat) (s : PointState) : OpOutcome UserPoint :=
  if ¬ validPosInt userId then
    ⟨.error .invalidId, s, []⟩
  else if ¬ validPosInt amount then
    ⟨.error .invalidUseAmount, s, []⟩
  else
    let uid := userId.toNatVal
    let a := amount.toIntVal
    let updatedPoint := selectById s.store uid - a
    if updatedPoint < 0 then
      ⟨.error .insufficientPoint, s,
        [.lockAcquire uid, .storeRead uid, .lockRelease uid]⟩
    else if historyOk then
      ⟨.ok ⟨uid, updatedPoint, now⟩,
        ⟨insertOrUpdate s.store uid updatedPoint,
          s.history ++ [⟨s.cursor, uid, a, .USE, now⟩], s.cursor + 1⟩,
        [.lockAcquire uid, .storeRead uid, .storeWrite uid updatedPoint,
          .historyInsert uid a .USE, .lockRelease uid]⟩
    else
      ⟨.error .historyRejected,
        ⟨insertOrUpdate s.store uid updatedPoint, s.history, s.cursor⟩,
        [.lockAcquire uid, .storeRead uid, .storeWrite uid updatedPoint,
          .lockRelease uid]⟩

/-- `PointService.usePoint` (guarded variant), normal run in which both
collaborator calls resolve. -/
def usePoint (limit : Int) (userId amount : JSNum) (now : Nat)
    (s : PointState) : OpOutcome UserPoint :=
  usePointRun true limit userId amount now s

/-- The historical unguarded `PointService.getPoint` (variant without the
per-user lock): textually identical to the guarded one. -/
def getPointU (userId : JSNum) (now : Nat) (s : PointState) :
    OpOutcome UserPoint :=
  if ¬ validPosInt userId then
    ⟨.error .invalidId, s, []⟩
  else
    let uid := userId.toNatVal
    ⟨.ok ⟨uid, selectById s.store uid, now⟩, s, [.storeRead uid]⟩

/-- The historical unguarded `PointService.getHistories`: textually
identical to the guarded one. -/
def getHistoriesU (userId : JSNum) (s : PointState) :
    OpOutcome (List PointHistory) :=
  if ¬ validPosInt userId then
    ⟨.error .invalidId, s, []⟩
  else
    let uid := userId.toNatVal
    ⟨.ok (s.history.filter (fun h => h.userId == uid)), s, [.historyRead uid]⟩

/-- The historical unguarded `PointService.chargePoint`: same validation,
read, limit check, write and append, with no mutex around the critical
section (so no lock events in its trace). -/
def chargePointU (limit : Int) (userId amount : JSNum) (now : Nat)
    (s : PointState) : OpOutcome UserPoint :=
  if ¬ validPosInt userId then
    ⟨.error .invalidId, s, []⟩
  else if ¬ validPosInt amount then
    ⟨.error .invalidChargeAmount, s, []⟩
  else
    let uid := userId.toNatVal
    let a := amount.toIntVal
    let updatedPoint := selectById s.store uid + a
    if updatedPoint > limit then
      ⟨.error (.limitExceeded limit), s, [.storeRead uid]⟩
    else
      ⟨.ok ⟨uid, updatedPoint, now⟩,
        ⟨insertOrUpdate s.store uid updatedPoint,
          s.history ++ [⟨s.cursor, uid, a, .CHARGE, now⟩], s.cursor + 1⟩,
        [.storeRead uid, .storeWrite uid updatedPoint,
          .historyInsert uid a .CHARGE]⟩

/-- The historical unguarded `PointService.usePoint`: same validation, read,
balance check, write and append, with no mutex. -/
def usePointU (limit : Int) (userId amount : JSNum) (now : Nat)
    (s : PointState) : OpOutcome UserPoint :=
  if ¬ validPosInt userId then
    ⟨.error .invalidId, s, []⟩
  else if ¬ validPosInt amount then
    ⟨.error .invalidUseAmount, s, []⟩
  else
    let uid := userId.toNatVal
    let a := amount.toIntVal
    let updatedPoint := selectById s.store uid - a
    if updatedPoint < 0 then
      ⟨.error .insufficientPoint, s, [.storeRead uid]⟩
    else
      ⟨.ok ⟨uid, updatedPoint, now⟩,
        ⟨insertOrUpdate s.store uid updatedPoint,
          s.history ++ [⟨s.cursor, uid, a, .USE, now⟩], s.cursor + 1⟩,
        [.storeRead uid, .storeWrite uid updatedPoint,
          .historyInsert uid a .USE]⟩

/-- State of `PointService.locks`, the per-user lock registry: an insertion
ordered map from user id to the identity (serial number) of the `Mutex`
object stored there, plus the next fresh serial. Distinct serials model
distinct `new Mutex()` objects. -/
structure LockRegistry where
  entries : List (Nat × Nat)
  next : Nat
deriving Repr, DecidableEq

/-- The empty registry (`new Map()`). -/
def LockRegistry.empty : LockRegistry := ⟨[], 0⟩

/-- `PointService.getMutexForUser`: if the map has no entry for `userId`,
set a fresh `Mutex` for it, then return the entry. The whole body is
synchronous JavaScript (no `await`), so on the event loop it executes
atomically; one call is therefore one atomic step of this function. -/
def getMutexForUser (r : LockRegistry) (userId : Nat) : Nat × LockRegistry :=
  match alookup r.entries userId with
  | some m => (m, r)
  | none => (r.next, ⟨r.entries ++ [(userId, r.next)], r.next + 1⟩)

/-- Run a sequence of `getMutexForUser` calls (in the arbitrary
interleaving order the event loop realises), collecting for each call the
caller's id together with the mutex it received. -/
def runRegistry : List Nat → LockRegistry → List (Nat × Nat) × LockRegistry
  | [], r => ([], r)
  | uid :: rest, r =>
    ((uid, (getMutexForUser r uid).1) ::
        (runRegistry rest (getMutexForUser r uid).2).1,
      (runRegistry rest (getMutexForUser r uid).2).2)

/-- A mutating request against a single user's balance. -/
inductive Request where
  | charge (amount : JSNum)
  | use (amount : JSNum)
deriving Repr, DecidableEq

/-- Dispatch one request to the corresponding guarded service method. -/
def applyRequest (limit : Int) (userId : JSNum) (now : Nat) (s : PointState) :
    Request → OpOutcome UserPoint
  | .charge a => chargePoint limit userId a now s
  | .use a => usePoint limit userId a now s

/-- Modelled from the spec: the `async-mutex` `Mutex` (library source is not
in the repository snapshot) makes the critical sections of same-user
requests mutually exclusive, so the observable effect of a set of
concurrent requests is their strictly sequential execution in the lock
grant order. `runSeq` executes the requests in one such order, each
evaluated against the state its predecessor left behind, and collects the
per-request results. -/
def runSeq (limit : Int) (userId : JSNum) (now : Nat) :
    List Request → PointState → List (Except PointErr UserPoint) × PointState
  | [], s => ([], s)
  | req :: rest, s =>
    ((applyRequest limit userId now s req).res ::
        (runSeq limit userId now rest
          (applyRequest limit userId now s req).state).1,
      (runSeq limit userId now rest
        (applyRequest limit userId now s req).state).2)

/-- The sequence of committed states after each request of a `runSeq` run
(the state after request `i` is the `i`-th element). -/
def runSeqStates (limit : Int) (userId : JSNum) (now : Nat) :
    List Request → PointState → List PointState
  | [], _ => []
  | req :: rest, s =>
    (applyRequest limit userId now s req).state ::
      runSeqStates limit userId now rest
        (applyRequest limit userId now s req).state

/-- Whether an `Except` result is a fulfilled promise. -/
def resOk {α : Type} : Except PointErr α → Bool
  | .ok _ => true
  | .error _ => false

/- Basic lemmas about the store table. -/

theorem alookup_insertOrUpdate_self (st : List (Nat × Int)) (uid : Nat)
    (p : Int) : alookup (insertOrUpdate st uid p) uid = some p := by
  induction st with
  | nil => simp [insertOrUpdate, alookup]
  | cons hd tl ih =>
    obtain ⟨k, v⟩ := hd
    by_cases hk : k = uid
    · simp [insertOrUpdate, alookup, hk]
    · simp [insertOrUpdate, alookup, hk, ih]

theorem alookup_insertOrUpdate_ne (st : List (Nat × Int)) (uid v : Nat)
    (p : Int) (h : v ≠ uid) :
    alookup (insertOrUpdate st uid p) v = alookup st v := by
  induction st with
  | nil => simp [insertOrUpdate, alookup, Ne.symm h]
  | cons hd tl ih =>
    obtain ⟨k, w⟩ := hd
    by_cases hk : k = uid
    · subst hk
      simp [insertOrUpdate, alookup, Ne.symm h]
    · by_cases hv : k = v
      · subst hv
        simp [insertOrUpdate, alookup, hk]
      · simp [insertOrUpdate, alookup, hk, hv, ih]

theorem selectById_insertOrUpdate_self (st : List (Nat × Int)) (uid : Nat)
    (p : Int) : selectById (insertOrUpdate st uid p) uid = p := by
  simp [selectById, alookup_insertOrUpdate_self]

theorem selectById_insertOrUpdate_ne (st : List (Nat × Int)) (uid v : Nat)
    (p : Int) (h : v ≠ uid) :
    selectById (insertOrUpdate st uid p) v = selectById st v := by
  simp [selectById, alookup_insertOrUpdate_ne st uid v p h]

/- Validation-gate lemmas for concrete positive integers. -/

theorem validPosInt_natCast (n : Nat) (h : 0 < n) :
    validPosInt (.int n) = true := by
  simp [validPosInt, JSNum.isInteger, JSNum.leZero]
  omega

theorem toNatVal_natCast (n : Nat) : (JSNum.int n).toNatVal = n := by
  simp [JSNum.toNatVal]

theorem toIntVal_natCast (n : Nat) : (JSNum.int n).toIntVal = (n : Int) :=
  rfl

/-- C1: for every positive-integer `userId` and `amount`, if the current
balance `B` satisfies `B + amount ≤ chargeLimit`, then `chargePoint`
succeeds: it returns a `UserPoint` with id `userId` and point
`B + amount`, stores `B + amount` under `userId` while leaving every other
user's balance untouched (single replace keyed by `userId`), performs
exactly one balance write, and appends exactly one `CHARGE` history record
with that `userId` and `amount`. -/
theorem chargePoint_success (limit : Int) (uid a now : Nat) (s : PointState)
    (huid : 0 < uid) (ha : 0 < a)
    (hlim : selectById s.store uid + (a : Int) ≤ limit) :
    (chargePoint limit (.int uid) (.int a) now s).res
        = .ok ⟨uid, selectById s.store uid + (a : Int), now⟩ ∧
    selectById (chargePoint limit (.int uid) (.int a) now s).state.store uid
        = selectById s.store uid + (a : Int) ∧
    (∀ v, v ≠ uid →
      selectById (chargePoint limit (.int uid) (.int a) now s).state.store v
        = selectById s.store v) ∧
    (chargePoint limit (.int uid) (.int a) now s).state.history
        = s.history ++ [⟨s.cursor, uid, (a : Int), .CHARGE, now⟩] ∧
    ((chargePoint limit (.int uid) (.int a) now s).trace.filter
        Event.isStoreWrite)
        = [.storeWrite uid (selectById s.store uid + (a : Int))] ∧
    ((chargePoint limit (.int uid) (.int a) now s).trace.filter
        Event.isHistoryInsert)
        = [.historyInsert uid (a : Int) .CHARGE] := by
  have hu := validPosInt_natCast uid huid
  have hav := validPosInt_natCast a ha
  have hgt : ¬ (selectById s.store uid + (a : Int) > limit) := by omega
  refine ⟨?_, ?_, ?_, ?_, ?_, ?_⟩
  · simp [chargePoint, chargePointRun, hu, hav, toNatVal_natCast,
      toIntVal_natCast, hgt]
  · simp [chargePoint, chargePointRun, hu, hav, toNatVal_natCast,
      toIntVal_natCast, hgt, selectById_insertOrUpdate_self]
  · intro v hv
    simp [chargePoint, chargePointRun, hu, hav, toNatVal_natCast,
      toIntVal_natCast, hgt, selectById_insertOrUpdate_ne _ _ _ _ hv]
  · simp [chargePoint, chargePointRun, hu, hav, toNatVal_natCast,
      toIntVal_natCast, hgt]
  · simp [chargePoint, chargePointRun, hu, hav, toNatVal_natCast,
      toIntVal_natCast, hgt, List.filter, Event.isStoreWrite]
  · simp [chargePoint, chargePointRun, hu, hav, toNatVal_natCast,
      toIntVal_natCast, hgt, List.filter, Event.isHistoryInsert]

/-- C1 witness: a user with empty store charging 50 under limit 1000
receives balance 50. -/
theorem chargePoint_success_witness :
    (chargePoint 1000 (.int 1) (.int 50) 0 PointState.empty).res
      = .ok ⟨1, selectById PointState.empty.store 1 + (50 : Int), 0⟩ :=
  (chargePoint_success 1000 1 50 0 PointState.empty (by decide) (by decide)
    (by decide)).1

/-- C2: for every positive-integer `userId` and `amount`, if the current
balance `B` satisfies `B + amount > chargeLimit`, then `chargePoint` fails
with `LimitExceeded` whose message includes the configured limit, and
performs zero mutation: the post-state equals the pre-state (balance stays
`B`, no history append), and the trace holds no balance write and no
history-insert event. -/
theorem chargePoint_limitExceeded (limit : Int) (uid a now : Nat)
    (s : PointState) (huid : 0 < uid) (ha : 0 < a)
    (hlim : selectById s.store uid + (a : Int) > limit) :
    (chargePoint limit (.int uid) (.int a) now s).res
        = .error (.limitExceeded limit) ∧
    (chargePoint limit (.int uid) (.int a) now s).state = s ∧
    (∃ pre post,
      errMessage (.limitExceeded limit) = pre ++ toString limit ++ post) ∧
    ((chargePoint limit (.int uid) (.int a) now s).trace.filter
        Event.isStoreWrite) = [] ∧
    ((chargePoint limit (.int uid) (.int a) now s).trace.filter
        Event.isHistoryInsert) = [] := by
  have hu := validPosInt_natCast uid huid
  have hav := validPosInt_natCast a ha
  refine ⟨?_, ?_, ⟨"충전할 수 있는 최대 포인트는 ", " 입니다.", rfl⟩, ?_, ?_⟩ <;>
    simp [chargePoint, chargePointRun, hu, hav, toNatVal_natCast,
      toIntVal_natCast, hlim, List.filter, Event.isStoreWrite,
      Event.isHistoryInsert, errMessage]

/-- C2 witness: charging 999 onto balance 100 with limit 1000 fails and
leaves the state unchanged. -/
theorem chargePoint_limitExceeded_witness :
    (chargePoint 1000 (.int 1) (.int 999) 0
        ⟨[(1, 100)], [], 1⟩).state = ⟨[(1, 100)], [], 1⟩ :=
  (chargePoint_limitExceeded 1000 1 999 0 ⟨[(1, 100)], [], 1⟩ (by decide)
    (by decide) (by decide)).2.1

/-- C3: for every positive-integer `userId` and `amount`, if the current
balance `B` satisfies `amount ≤ B`, then `usePoint` succeeds: it commits
`B − amount` for `userId` (other balances untouched), appends exactly one
`USE` history record with that `userId` and `amount`, and returns a
`UserPoint` with id `userId` and point `B − amount`. -/
theorem usePoint_success (limit : Int) (uid a now : Nat) (s : PointState)
    (huid : 0 < uid) (ha : 0 < a)
    (hbal : (a : Int) ≤ selectById s.store uid) :
    (usePoint limit (.int uid) (.int a) now s).res
        = .ok ⟨uid, selectById s.store uid - (a : Int), now⟩ ∧
    selectById (usePoint limit (.int uid) (.int a) now s).state.store uid
        = selectById s.store uid - (a : Int) ∧
    (∀ v, v ≠ uid →
      selectById (usePoint limit (.int uid) (.int a) now s).state.store v
        = selectById s.store v) ∧
    (usePoint limit (.int uid) (.int a) now s).state.history
        = s.history ++ [⟨s.cursor, uid, (a : Int), .USE, now⟩] ∧
    ((usePoint limit (.int uid) (.int a) now s).trace.filter
        Event.isStoreWrite)
        = [.storeWrite uid (selectById s.store uid - (a : Int))] ∧
    ((usePoint limit (.int uid) (.int a) now s).trace.filter
        Event.isHistoryInsert)
        = [.historyInsert uid (a : Int) .USE] := by
  have hu := validPosInt_natCast uid huid
  have hav := validPosInt_natCast a ha
  have hlt : ¬ (selectById s.store uid - (a : Int) < 0) := by omega
  refine ⟨?_, ?_, ?_, ?_, ?_, ?_⟩
  · simp [usePoint, usePointRun, hu, hav, toNatVal_natCast,
      toIntVal_natCast, hlt]
  · simp [usePoint, usePointRun, hu, hav, toNatVal_natCast,
      toIntVal_natCast, hlt, selectById_insertOrUpdate_self]
  · intro v hv
    simp [usePoint, usePointRun, hu, hav, toNatVal_natCast,
      toIntVal_natCast, hlt, selectById_insertOrUpdate_ne _ _ _ _ hv]
  · simp [usePoint, usePointRun, hu, hav, toNatVal_natCast,
      toIntVal_natCast, hlt]
  · simp [usePoint, usePointRun, hu, hav, toNatVal_natCast,
      toIntVal_natCast, hlt, List.filter, Event.isStoreWrite]
  · simp [usePoint, usePointRun, hu, hav, toNatVal_natCast,
      toIntVal_natCast, hlt, List.filter, Event.isHistoryInsert]

/-- C3 witness: using 100 of a 100-point balance succeeds with balance 0. -/
theorem usePoint_success_witness :
    (usePoint 1000 (.int 1) (.int 100) 0 ⟨[(1, 100)], [], 1⟩).res
      = .ok ⟨1, selectById (⟨[(1, 100)], [], 1⟩ : PointState).store 1
          - (100 : Int), 0⟩ :=
  (usePoint_success 1000 1 100 0 ⟨[(1, 100)], [], 1⟩ (by decide) (by decide)
    (by decide)).1

/-- C4: for every positive-integer `userId` and `amount`, if `amount`
exceeds the current balance `B` (prospective balance negative), `usePoint`
fails with `InsufficientPoint` and performs zero mutation: the post-state
equals the pre-state and the trace holds no balance write and no
history-insert event. -/
theorem usePoint_insufficient (limit : Int) (uid a now : Nat)
    (s : PointState) (huid : 0 < uid) (ha : 0 < a)
    (hbal : selectById s.store uid < (a : Int)) :
    (usePoint limit (.int uid) (.int a) now s).res
        = .error .insufficientPoint ∧
    (usePoint limit (.int uid) (.int a) now s).state = s ∧
    ((usePoint limit (.int uid) (.int a) now s).trace.filter
        Event.isStoreWrite) = [] ∧
    ((usePoint limit (.int uid) (.int a) now s).trace.filter
        Event.isHistoryInsert) = [] := by
  have hu := validPosInt_natCast uid huid
  have hav := validPosInt_natCast a ha
  have hlt : selectById s.store uid - (a : Int) < 0 := by omega
  refine ⟨?_, ?_, ?_, ?_⟩ <;>
    simp [usePoint, usePointRun, hu, hav, toNatVal_natCast,
      toIntVal_natCast, hlt, List.filter, Event.isStoreWrite,
      Event.isHistoryInsert]

/-- C4 witness: using 101 of a 100-point balance fails and leaves the
state unchanged. -/
theorem usePoint_insufficient_witness :
    (usePoint 1000 (.int 1) (.int 101) 0 ⟨[(1, 100)], [], 1⟩).state
      = ⟨[(1, 100)], [], 1⟩ :=
  (usePoint_insufficient 1000 1 101 0 ⟨[(1, 100)], [], 1⟩ (by decide)
    (by decide) (by decide)).2.1

/-- C5: whenever `userId` is not a positive integer, each of `getPoint`,
`getHistories`, `chargePoint` and `usePoint` fails with the invalid-id
error (of the spec's `InvalidArgument` kind), the state is untouched and
the event trace is empty — so no lock acquisition, no store read, no
balance write and no history append; and whenever `amount` is not a
positive integer, `chargePoint` and `usePoint` fail with an
`InvalidArgument`-kind error, again with unchanged state and empty
trace. -/
theorem invalidArgument_gate (limit : Int) (u a : JSNum) (now : Nat)
    (s : PointState) :
    (validPosInt u = false →
      (getPoint u now s).res = .error .invalidId ∧
      (getPoint u now s).state = s ∧ (getPoint u now s).trace = [] ∧
      (getHistories u s).res = .error .invalidId ∧
      (getHistories u s).state = s ∧ (getHistories u s).trace = [] ∧
      (chargePoint limit u a now s).res = .error .invalidId ∧
      (chargePoint limit u a now s).state = s ∧
      (chargePoint limit u a now s).trace = [] ∧
      (usePoint limit u a now s).res = .error .invalidId ∧
      (usePoint limit u a now s).state = s ∧
      (usePoint limit u a now s).trace = [] ∧
      PointErr.invalidId.isInvalidArgument = true) ∧
    (validPosInt a = false →
      (∃ e, (chargePoint limit u a now s).res = .error e ∧
        e.isInvalidArgument = true) ∧
      (chargePoint limit u a now s).state = s ∧
      (chargePoint limit u a now s).trace = [] ∧
      (∃ e, (usePoint limit u a now s).res = .error e ∧
        e.isInvalidArgument = true) ∧
      (usePoint limit u a now s).state = s ∧
      (usePoint limit u a now s).trace = []) := by
  constructor
  · intro hu
    refine ⟨?_, ?_, ?_, ?_, ?_, ?_, ?_, ?_, ?_, ?_, ?_, ?_, rfl⟩ <;>
      simp [getPoint, getHistories, chargePoint, chargePointRun, usePoint,
        usePointRun, hu]
  · intro ha
    by_cases hu : validPosInt u = true
    · refine ⟨⟨.invalidChargeAmount, ?_, rfl⟩, ?_, ?_,
        ⟨.invalidUseAmount, ?_, rfl⟩, ?_, ?_⟩ <;>
        simp [chargePoint, chargePointRun, usePoint, usePointRun, hu, ha]
    · have hu' : validPosInt u = false := by
        cases h : validPosInt u
        · rfl
        · exact absurd h hu
      refine ⟨⟨.invalidId, ?_, rfl⟩, ?_, ?_, ⟨.invalidId, ?_, rfl⟩,
        ?_, ?_⟩ <;>
        simp [chargePoint, chargePointRun, usePoint, usePointRun, hu']

/-- C5 witness: a fractional user id (1.5) is rejected by `getPoint` with
the invalid-id error. -/
theorem invalidArgument_gate_witness :
    (getPoint (.frac 1) 0 PointState.empty).res = .error .invalidId :=
  ((invalidArgument_gate 1000 (.frac 1) .nan 0 PointState.empty).1
    (by decide)).1

/- Case-analysis helpers shared by the invariant and concurrency claims. -/

theorem toIntVal_pos (x : JSNum) (h : validPosInt x = true) :
    0 < x.toIntVal := by
  cases x <;>
    simp [validPosInt, JSNum.isInteger, JSNum.leZero, JSNum.toIntVal]
      at h ⊢
  omega

theorem getPoint_state (u : JSNum) (now : Nat) (s : PointState) :
    (getPoint u now s).state = s := by
  unfold getPoint
  split <;> rfl

theorem getHistories_state (u : JSNum) (s : PointState) :
    (getHistories u s).state = s := by
  unfold getHistories
  split <;> rfl

/-- Outcome dichotomy of a guarded `chargePoint` call: either it rejects
leaving the state untouched, or both arguments are valid, the limit check
passes, and it commits the charged balance plus one `CHARGE` record. -/
theorem chargePoint_cases (limit : Int) (u a : JSNum) (now : Nat)
    (s : PointState) :
    ((chargePoint limit u a now s).state = s ∧
      resOk (chargePoint limit u a now s).res = false) ∨
    (validPosInt u = true ∧ validPosInt a = true ∧
      selectById s.store u.toNatVal + a.toIntVal ≤ limit ∧
      (chargePoint limit u a now s).res
        = .ok ⟨u.toNatVal, selectById s.store u.toNatVal + a.toIntVal, now⟩ ∧
      (chargePoint limit u a now s).state
        = ⟨insertOrUpdate s.store u.toNatVal
              (selectById s.store u.toNatVal + a.toIntVal),
            s.history
              ++ [⟨s.cursor, u.toNatVal, a.toIntVal, .CHARGE, now⟩],
            s.cursor + 1⟩) := by
  by_cases hu : validPosInt u = true
  · by_cases ha : validPosInt a = true
    · by_cases hgt : selectById s.store u.toNatVal + a.toIntVal > limit
      · left
        constructor <;> simp [chargePoint, chargePointRun, hu, ha, hgt, resOk]
      · right
        refine ⟨hu, ha, by omega, ?_, ?_⟩ <;>
          simp [chargePoint, chargePointRun, hu, ha, hgt]
    · left
      have ha' : validPosInt a = false := by
        cases h : validPosInt a
        · rfl
        · exact absurd h ha
      constructor <;> simp [chargePoint, chargePointRun, hu, ha', resOk]
  · left
    have hu' : validPosInt u = false := by
      cases h : validPosInt u
      · rfl
      · exact absurd h hu
    constructor <;> simp [chargePoint, chargePointRun, hu', resOk]

/-- Outcome dichotomy of a guarded `usePoint` call: either it rejects
leaving the state untouched, or both arguments are valid, the balance
check passes, and it commits the reduced balance plus one `USE` record. -/
theorem usePoint_cases (limit : Int) (u a : JSNum) (now : Nat)
    (s : PointState) :
    ((usePoint limit u a now s).state = s ∧
      resOk (usePoint limit u a now s).res = false) ∨
    (validPosInt u = true ∧ validPosInt a = true ∧
      0 ≤ selectById s.store u.toNatVal - a.toIntVal ∧
      (usePoint limit u a now s).res
        = .ok ⟨u.toNatVal, selectById s.store u.toNatVal - a.toIntVal, now⟩ ∧
      (usePoint limit u a now s).state
        = ⟨insertOrUpdate s.store u.toNatVal
              (selectById s.store u.toNatVal - a.toIntVal),
            s.history
              ++ [⟨s.cursor, u.toNatVal, a.toIntVal, .USE, now⟩],
            s.cursor + 1⟩) := by
  by_cases hu : validPosInt u = true
  · by_cases ha : validPosInt a = true
    · by_cases hlt : selectById s.store u.toNatVal - a.toIntVal < 0
      · left
        constructor <;> simp [usePoint, usePointRun, hu, ha, hlt, resOk]
      · right
        refine ⟨hu, ha, by omega, ?_, ?_⟩ <;>
          simp [usePoint, usePointRun, hu, ha, hlt]
    · left
      have ha' : validPosInt a = false := by
        cases h : validPosInt a
        · rfl
        · exact absurd h ha
      constructor <;> simp [usePoint, usePointRun, hu, ha', resOk]
  · left
    have hu' : validPosInt u = false := by
      cases h : validPosInt u
      · rfl
      · exact absurd h hu
    constructor <;> simp [usePoint, usePointRun, hu', resOk]

/-- C6: every operation preserves non-negativity of every user's stored
balance — from a state where user `v` holds `point ≥ 0`, after any
completed `getPoint`, `getHistories`, `chargePoint` or `usePoint` call
(success or failure) `v` still holds `point ≥ 0` — and immediately after
any successful `chargePoint` the charged user's stored balance is at most
`chargeLimit`. -/
theorem balance_invariant (limit : Int) (u a : JSNum) (now : Nat)
    (s : PointState) (v : Nat) :
    (0 ≤ selectById s.store v →
      0 ≤ selectById (getPoint u now s).state.store v) ∧
    (0 ≤ selectById s.store v →
      0 ≤ selectById (getHistories u s).state.store v) ∧
    (0 ≤ selectById s.store v →
      0 ≤ selectById (chargePoint limit u a now s).state.store v) ∧
    (0 ≤ selectById s.store v →
      0 ≤ selectById (usePoint limit u a now s).state.store v) ∧
    (∀ up, (chargePoint limit u a now s).res = .ok up →
      selectById (chargePoint limit u a now s).state.store u.toNatVal
        ≤ limit) := by
  refine ⟨?_, ?_, ?_, ?_, ?_⟩
  · intro h
    rw [getPoint_state]
    exact h
  · intro h
    rw [getHistories_state]
    exact h
  · intro h
    rcases chargePoint_cases limit u a now s with ⟨hst, _⟩ |
      ⟨hu, ha, hle, hres, hst⟩
    · rw [hst]
      exact h
    · rw [hst]
      by_cases hv : v = u.toNatVal
      · subst hv
        rw [selectById_insertOrUpdate_self]
        have := toIntVal_pos a ha
        omega
      · rw [selectById_insertOrUpdate_ne _ _ _ _ hv]
        exact h
  · intro h
    rcases usePoint_cases limit u a now s with ⟨hst, _⟩ |
      ⟨hu, ha, hge, hres, hst⟩
    · rw [hst]
      exact h
    · rw [hst]
      by_cases hv : v = u.toNatVal
      · subst hv
        rw [selectById_insertOrUpdate_self]
        omega
      · rw [selectById_insertOrUpdate_ne _ _ _ _ hv]
        exact h
  · intro up hok
    rcases chargePoint_cases limit u a now s with ⟨hst, hko⟩ |
      ⟨hu, ha, hle, hres, hst⟩
    · rw [hok] at hko
      simp [resOk] at hko
    · rw [hst]
      rw [selectById_insertOrUpdate_self]
      exact hle

/-- C6 witness: charging 50 under limit 1000 onto an empty store keeps the
balance of user 1 non-negative. -/
theorem balance_invariant_witness :
    0 ≤ selectById
      (chargePoint 1000 (.int 1) (.int 50) 0 PointState.empty).state.store
      1 :=
  (balance_invariant 1000 (.int 1) (.int 50) 0 PointState.empty 1).2.2.1
    (by decide)

/- Lock-registry lemmas. -/

theorem alookup_append_left {α : Type} (l l' : List (Nat × α)) (u : Nat)
    (m : α) (h : alookup l u = some m) : alookup (l ++ l') u = some m := by
  induction l with
  | nil => simp [alookup] at h
  | cons hd tl ih =>
    obtain ⟨k, v⟩ := hd
    by_cases hk : k = u
    · simp [alookup, hk] at h ⊢
      exact h
    · simp [alookup, hk] at h ⊢
      exact ih h

theorem alookup_append_single {α : Type} (l : List (Nat × α)) (u : Nat)
    (m : α) (h : alookup l u = none) :
    alookup (l ++ [(u, m)]) u = some m := by
  induction l with
  | nil => simp [alookup]
  | cons hd tl ih =>
    obtain ⟨k, v⟩ := hd
    by_cases hk : k = u
    · simp [alookup, hk] at h
    · simp [alookup, hk] at h ⊢
      exact ih h

theorem alookup_eq_none_iff {α : Type} (l : List (Nat × α)) (u : Nat) :
    alookup l u = none ↔ u ∉ l.map Prod.fst := by
  induction l with
  | nil => simp [alookup]
  | cons hd tl ih =>
    obtain ⟨k, v⟩ := hd
    by_cases hk : k = u
    · simp [alookup, hk]
    · simp [alookup, hk, ih, Ne.symm hk]

/-- One `getMutexForUser` call never removes or replaces an existing
binding. -/
theorem getMutexForUser_mono (r : LockRegistry) (c u : Nat) (m : Nat)
    (h : alookup r.entries u = some m) :
    alookup (getMutexForUser r c).2.entries u = some m := by
  unfold getMutexForUser
  cases hc : alookup r.entries c
  · simpa using alookup_append_left _ _ _ _ h
  · simpa using h

/-- After a `getMutexForUser` call, the map binds the caller's id to the
returned mutex. -/
theorem getMutexForUser_binds (r : LockRegistry) (c : Nat) :
    alookup (getMutexForUser r c).2.entries c
      = some (getMutexForUser r c).1 := by
  unfold getMutexForUser
  cases hc : alookup r.entries c
  · simpa using alookup_append_single _ _ _ hc
  · simpa using hc

/-- One `getMutexForUser` call preserves key-uniqueness of the map. -/
theorem getMutexForUser_nodup (r : LockRegistry) (c : Nat)
    (h : (r.entries.map Prod.fst).Nodup) :
    ((getMutexForUser r c).2.entries.map Prod.fst).Nodup := by
  unfold getMutexForUser
  cases hc : alookup r.entries c
  · have hmem : c ∉ r.entries.map Prod.fst :=
      (alookup_eq_none_iff _ _).mp hc
    simp [List.nodup_append, h, hmem]
  · simpa using h

theorem runRegistry_mono (calls : List Nat) (r : LockRegistry) (u m : Nat)
    (h : alookup r.entries u = some m) :
    alookup (runRegistry calls r).2.entries u = some m := by
  induction calls generalizing r with
  | nil => simpa [runRegistry] using h
  | cons c rest ih =>
    simp only [runRegistry]
    exact ih _ (getMutexForUser_mono r c u m h)

/-- Every result of a `runRegistry` run is the final map's binding for the
calling id. -/
theorem runRegistry_result_binds (calls : List Nat) (r : LockRegistry)
    (u m : Nat) (h : (u, m) ∈ (runRegistry calls r).1) :
    alookup (runRegistry calls r).2.entries u = some m := by
  induction calls generalizing r with
  | nil => simp [runRegistry] at h
  | cons c rest ih =>
    simp only [runRegistry, List.mem_cons, Prod.mk.injEq] at h
    rcases h with ⟨hu, hm⟩ | h
    · subst hu
      subst hm
      simp only [runRegistry]
      exact runRegistry_mono rest _ _ _ (getMutexForUser_binds r u)
    · simp only [runRegistry]
      exact ih _ h

/-- Every id that issued a call is bound in some result of the run. -/
theorem runRegistry_mem_result (calls : List Nat) (r : LockRegistry)
    (uid : Nat) (h : uid ∈ calls) :
    ∃ m, (uid, m) ∈ (runRegistry calls r).1 := by
  induction calls generalizing r with
  | nil => simp at h
  | cons c rest ih =>
    rcases List.mem_cons.mp h with hc | hc
    · subst hc
      exact ⟨(getMutexForUser r uid).1, by simp [runRegistry]⟩
    · obtain ⟨m, hm⟩ := ih (getMutexForUser r c).2 hc
      exact ⟨m, by simp [runRegistry, hm]⟩

theorem runRegistry_nodup (calls : List Nat) (r : LockRegistry)
    (h : (r.entries.map Prod.fst).Nodup) :
    ((runRegistry calls r).2.entries.map Prod.fst).Nodup := by
  induction calls generalizing r with
  | nil => simpa [runRegistry] using h
  | cons c rest ih =>
    simp only [runRegistry]
    exact ih _ (getMutexForUser_nodup r c h)

/-- C7: lock-registry uniqueness. For any interleaving of
`getMutexForUser` calls starting from the empty registry (one call is one
atomic event-loop step, since the function body is synchronous): the final
map binds each id at most once; any two calls for the same id — including
two racing first-time calls — receive the same mutex object; a call for an
id already bound to `m` returns `m` and leaves the registry untouched
(entries are never replaced or removed); and a first-time call for an id
appends exactly that one entry. -/
theorem lock_registry_unique (calls : List Nat) (uid : Nat) :
    (((runRegistry calls LockRegistry.empty).2.entries.map
        Prod.fst).Nodup) ∧
    (∀ m₁ m₂, (uid, m₁) ∈ (runRegistry calls LockRegistry.empty).1 →
      (uid, m₂) ∈ (runRegistry calls LockRegistry.empty).1 → m₁ = m₂) ∧
    (∀ r c m, alookup r.entries c = some m →
      getMutexForUser r c = (m, r)) ∧
    (∀ r c, alookup r.entries c = none →
      (getMutexForUser r c).2.entries = r.entries ++ [(c, r.next)]) ∧
    (uid ∈ calls →
      ∃ m, alookup (runRegistry calls LockRegistry.empty).2.entries uid
        = some m) := by
  refine ⟨?_, ?_, ?_, ?_, ?_⟩
  · exact runRegistry_nodup calls _ (by simp [LockRegistry.empty])
  · intro m₁ m₂ h₁ h₂
    have b₁ := runRegistry_result_binds calls _ _ _ h₁
    have b₂ := runRegistry_result_binds calls _ _ _ h₂
    rw [b₁] at b₂
    exact Option.some.inj b₂
  · intro r c m h
    unfold getMutexForUser
    rw [h]
  · intro r c h
    unfold getMutexForUser
    rw [h]
  · intro hmem
    obtain ⟨m, hm⟩ := runRegistry_mem_result calls LockRegistry.empty uid hmem
    exact ⟨m, runRegistry_result_binds calls _ _ _ hm⟩

/-- C7 witness: two racing first-time calls for id 5 receive the same
mutex object. -/
theorem lock_registry_unique_witness :
    ∃ m, alookup (runRegistry [5, 5] LockRegistry.empty).2.entries 5
      = some m :=
  (lock_registry_unique [5, 5] 5).2.2.2.2 (by decide)

/-- One committed request keeps every balance within `[0, limit]`. -/
theorem applyRequest_inv (limit : Int) (u : JSNum) (now : Nat)
    (s : PointState) (req : Request)
    (h : ∀ v, 0 ≤ selectById s.store v ∧ selectById s.store v ≤ limit) :
    ∀ v, 0 ≤ selectById (applyRequest limit u now s req).state.store v ∧
      selectById (applyRequest limit u now s req).state.store v ≤ limit := by
  cases req with
  | charge a =>
    rcases chargePoint_cases limit u a now s with ⟨hst, _⟩ |
      ⟨hu, ha, hle, _, hst⟩
    · intro v
      simpa [applyRequest, hst] using h v
    · intro v
      simp only [applyRequest, hst]
      by_cases hv : v = u.toNatVal
      · subst hv
        rw [selectById_insertOrUpdate_self]
        have hpos := toIntVal_pos a ha
        have hb := h u.toNatVal
        omega
      · rw [selectById_insertOrUpdate_ne _ _ _ _ hv]
        exact h v
  | use a =>
    rcases usePoint_cases limit u a now s with ⟨hst, _⟩ |
      ⟨hu, ha, hge, _, hst⟩
    · intro v
      simpa [applyRequest, hst] using h v
    · intro v
      simp only [applyRequest, hst]
      by_cases hv : v = u.toNatVal
      · subst hv
        rw [selectById_insertOrUpdate_self]
        have hpos := toIntVal_pos a ha
        have hb := h u.toNatVal
        omega
      · rw [selectById_insertOrUpdate_ne _ _ _ _ hv]
        exact h v

/-- Every state committed along a sequential run keeps every balance
within `[0, limit]`. -/
theorem runSeqStates_inv (limit : Int) (u : JSNum) (now : Nat)
    (reqs : List Request) (s0 : PointState)
    (h : ∀ v, 0 ≤ selectById s0.store v ∧ selectById s0.store v ≤ limit) :
    ∀ s' ∈ runSeqStates limit u now reqs s0, ∀ v,
      0 ≤ selectById s'.store v ∧ selectById s'.store v ≤ limit := by
  induction reqs generalizing s0 with
  | nil => simp [runSeqStates]
  | cons req rest ih =>
    intro s' hs'
    simp only [runSeqStates, List.mem_cons] at hs'
    rcases hs' with hs' | hs'
    · subst hs'
      exact applyRequest_inv limit u now s0 req h
    · exact ih _ (applyRequest_inv limit u now s0 req h) s' hs'

/-- C8: serializability under concurrency. With the mutex making same-user
critical sections mutually exclusive, a set of concurrent requests
executes as a strictly sequential run in the lock grant order (`runSeq`),
each request evaluated against the balance its predecessor committed.
First conjunct: along any such run, every committed state keeps every
balance within `[0, chargeLimit]`. Second conjunct: with
`chargeLimit = 1000` and a user at balance 0, any grant order of five
concurrent charges of 500 yields exactly two fulfilled results, exactly
three `LimitExceeded(1000)` rejections, and a final balance of 1000. -/
theorem concurrent_requests_serializable (limit : Int) (u : JSNum)
    (now : Nat) (reqs : List Request) (s0 : PointState) :
    ((∀ v, 0 ≤ selectById s0.store v ∧ selectById s0.store v ≤ limit) →
      ∀ s' ∈ runSeqStates limit u now reqs s0, ∀ v,
        0 ≤ selectById s'.store v ∧ selectById s'.store v ≤ limit) ∧
    (∀ l, l.Perm (List.replicate 5 (Request.charge (.int 500))) →
      ((runSeq 1000 (.int 1) now l PointState.empty).1.countP resOk = 2 ∧
        ((runSeq 1000 (.int 1) now l PointState.empty).1.countP
          (fun r => decide (r = .error (.limitExceeded 1000)))) = 3 ∧
        selectById (runSeq 1000 (.int 1) now l
          PointState.empty).2.store 1 = 1000)) := by
  constructor
  · intro h
    exact runSeqStates_inv limit u now reqs s0 h
  · intro l hl
    have hlen : l.length = 5 := by
      simpa using hl.length_eq
    have hmem : ∀ x ∈ l, x = Request.charge (.int 500) := by
      intro x hx
      exact List.eq_of_mem_replicate (hl.mem_iff.mp hx)
    have hrep : l = List.replicate 5 (Request.charge (.int 500)) :=
      List.eq_replicate_iff.mpr ⟨hlen, hmem⟩
    subst hrep
    refine ⟨rfl, rfl, rfl⟩

/-- C8 witness: the five-way concurrent charge scenario ends at balance
1000. -/
theorem concurrent_requests_serializable_witness :
    selectById (runSeq 1000 (.int 1) 0
      (List.replicate 5 (Request.charge (.int 500)))
      PointState.empty).2.store 1 = 1000 :=
  ((concurrent_requests_serializable 1000 (.int 1) 0
      (List.replicate 5 (Request.charge (.int 500))) PointState.empty).2
    (List.replicate 5 (Request.charge (.int 500)))
    (List.Perm.refl _)).2.2

/-- C9: sequential equivalence of the two historical service variants.
For every single invocation executed strictly sequentially from the same
store state and `chargeLimit`, the lock-guarded service and the unguarded
service return the same result (same point value or same error) and leave
the same final store and history state, for each of the four
operations. -/
theorem guarded_unguarded_equiv (limit : Int) (u a : JSNum) (now : Nat)
    (s : PointState) :
    (getPoint u now s).res = (getPointU u now s).res ∧
    (getPoint u now s).state = (getPointU u now s).state ∧
    (getHistories u s).res = (getHistoriesU u s).res ∧
    (getHistories u s).state = (getHistoriesU u s).state ∧
    (chargePoint limit u a now s).res = (chargePointU limit u a now s).res ∧
    (chargePoint limit u a now s).state
      = (chargePointU limit u a now s).state ∧
    (usePoint limit u a now s).res = (usePointU limit u a now s).res ∧
    (usePoint limit u a now s).state = (usePointU limit u a now s).state := by
  refine ⟨rfl, rfl, rfl, rfl, ?_, ?_, ?_, ?_⟩ <;>
    simp [chargePoint, chargePointRun, chargePointU, usePoint, usePointRun,
      usePointU] <;>
    (repeat' split) <;> rfl

/-- C10: non-atomicity at the collaborator boundary. Inside the critical
section the balance write precedes the history append; in the run where
the history append rejects after the balance write succeeded (the
`historyOk = false` run of the same source), `chargePoint` (resp.
`usePoint`) rejects while the user's balance remains at the new value
`B + amount` (resp. `B − amount`) and the history log is unchanged — so a
rejected charge or use does not imply an unchanged balance. -/
theorem history_reject_keeps_write (limit : Int) (uid a now : Nat)
    (s : PointState) (huid : 0 < uid) (ha : 0 < a) :
    (selectById s.store uid + (a : Int) ≤ limit →
      (chargePointRun false limit (.int uid) (.int a) now s).res
          = .error .historyRejected ∧
      selectById (chargePointRun false limit (.int uid) (.int a) now
          s).state.store uid = selectById s.store uid + (a : Int) ∧
      (chargePointRun false limit (.int uid) (.int a) now s).state.history
          = s.history) ∧
    ((a : Int) ≤ selectById s.store uid →
      (usePointRun false limit (.int uid) (.int a) now s).res
          = .error .historyRejected ∧
      selectById (usePointRun false limit (.int uid) (.int a) now
          s).state.store uid = selectById s.store uid - (a : Int) ∧
      (usePointRun false limit (.int uid) (.int a) now s).state.history
          = s.history) := by
  have hu := validPosInt_natCast uid huid
  have hav := validPosInt_natCast a ha
  constructor
  · intro hle
    have hgt : ¬ (selectById s.store uid + (a : Int) > limit) := by omega
    refine ⟨?_, ?_, ?_⟩ <;>
      simp [chargePointRun, hu, hav, toNatVal_natCast, toIntVal_natCast,
        hgt, selectById_insertOrUpdate_self]
  · intro hge
    have hlt : ¬ (selectById s.store uid - (a : Int) < 0) := by omega
    refine ⟨?_, ?_, ?_⟩ <;>
      simp [usePointRun, hu, hav, toNatVal_natCast, toIntVal_natCast,
        hlt, selectById_insertOrUpdate_self]

/-- C10 witness: a rejected history append after charging 50 leaves the
balance at 50, not at its pre-charge value. -/
theorem history_reject_keeps_write_witness :
    selectById (chargePointRun false 1000 (.int 1) (.int 50) 0
      PointState.empty).state.store 1
      = selectById PointState.empty.store 1 + (50 : Int) :=
  ((history_reject_keeps_write 1000 1 50 0 PointState.empty (by decide)
    (by decide)).1 (by decide)).2.1

end PointTdd
